import Mathlib

/-!
Shallow embedding of the 3D LUT filter (libavfilter/vf_lut3d.c) and proofs
about the loader, the interpolation engine and the pixel mapper.
C `float` arithmetic is modelled exactly over the rationals; C integer casts
and array indexing are modelled explicitly.
-/

namespace VfLut3D

/-- Color sample: `struct rgbvec` from the source, floats modelled as rationals. -/
structure rgbvec where
  r : ℚ
  g : ℚ
  b : ℚ
  deriving DecidableEq

/-- The cubic sample array `lut[MAX_LEVEL][MAX_LEVEL][MAX_LEVEL]`, modelled as a
total function on integer indices (out-of-range cells hold arbitrary values,
standing for whatever memory the C array access would read). -/
abbrev Grid := ℤ → ℤ → ℤ → rgbvec

/-- The C cast `(int)x`: truncation toward zero. -/
def truncQ (x : ℚ) : ℤ := if 0 ≤ x then ⌊x⌋ else ⌈x⌉

/-- `#define NEAR(x) ((int)((x) + .5))` -/
def NEAR (x : ℚ) : ℤ := truncQ (x + 1/2)

/-- `#define PREV(x) ((int)(x))` -/
def PREV (x : ℚ) : ℤ := truncQ x

/-- `#define NEXT(x) ((int)(x) + 1)` -/
def NEXT (x : ℚ) : ℤ := truncQ x + 1

/-- `lerpf` from the source. -/
def lerpf (v0 v1 f : ℚ) : ℚ := v0 + (v1 - v0) * f

/-- `lerp` from the source. -/
def lerp (v0 v1 : rgbvec) (f : ℚ) : rgbvec :=
  ⟨lerpf v0.r v1.r f, lerpf v0.g v1.g f, lerpf v0.b v1.b f⟩

/-- The fields of `LUT3DContext` the core uses: the sample grid and `lutsize`. -/
structure LUT3DContext where
  lut : Grid
  lutsize : ℤ

/-- `interp_nearest` from the source. -/
def interp_nearest (lut3d : LUT3DContext) (s : rgbvec) : rgbvec :=
  lut3d.lut (NEAR s.r) (NEAR s.g) (NEAR s.b)

/-- `interp_trilinear` from the source. -/
def interp_trilinear (lut3d : LUT3DContext) (s : rgbvec) : rgbvec :=
  let d : rgbvec := ⟨s.r - (PREV s.r : ℚ), s.g - (PREV s.g : ℚ), s.b - (PREV s.b : ℚ)⟩
  let c000 := lut3d.lut (PREV s.r) (PREV s.g) (PREV s.b)
  let c001 := lut3d.lut (PREV s.r) (PREV s.g) (NEXT s.b)
  let c010 := lut3d.lut (PREV s.r) (NEXT s.g) (PREV s.b)
  let c011 := lut3d.lut (PREV s.r) (NEXT s.g) (NEXT s.b)
  let c100 := lut3d.lut (NEXT s.r) (PREV s.g) (PREV s.b)
  let c101 := lut3d.lut (NEXT s.r) (PREV s.g) (NEXT s.b)
  let c110 := lut3d.lut (NEXT s.r) (NEXT s.g) (PREV s.b)
  let c111 := lut3d.lut (NEXT s.r) (NEXT s.g) (NEXT s.b)
  let c00 := lerp c000 c100 d.r
  let c10 := lerp c010 c110 d.r
  let c01 := lerp c001 c101 d.r
  let c11 := lerp c011 c111 d.r
  let c0 := lerp c00 c10 d.g
  let c1 := lerp c01 c11 d.g
  lerp c0 c1 d.b

/-- `interp_tetrahedral` from the source, branch for branch. -/
def interp_tetrahedral (lut3d : LUT3DContext) (s : rgbvec) : rgbvec :=
  let d : rgbvec := ⟨s.r - (PREV s.r : ℚ), s.g - (PREV s.g : ℚ), s.b - (PREV s.b : ℚ)⟩
  let c000 := lut3d.lut (PREV s.r) (PREV s.g) (PREV s.b)
  let c001 := lut3d.lut (PREV s.r) (PREV s.g) (NEXT s.b)
  let c010 := lut3d.lut (PREV s.r) (NEXT s.g) (PREV s.b)
  let c011 := lut3d.lut (PREV s.r) (NEXT s.g) (NEXT s.b)
  let c100 := lut3d.lut (NEXT s.r) (PREV s.g) (PREV s.b)
  let c101 := lut3d.lut (NEXT s.r) (PREV s.g) (NEXT s.b)
  let c110 := lut3d.lut (NEXT s.r) (NEXT s.g) (PREV s.b)
  let c111 := lut3d.lut (NEXT s.r) (NEXT s.g) (NEXT s.b)
  if d.r > d.g then
    if d.g > d.b then
      ⟨(1-d.r) * c000.r + (d.r-d.g) * c100.r + (d.g-d.b) * c110.r + d.b * c111.r,
       (1-d.r) * c000.g + (d.r-d.g) * c100.g + (d.g-d.b) * c110.g + d.b * c111.g,
       (1-d.r) * c000.b + (d.r-d.g) * c100.b + (d.g-d.b) * c110.b + d.b * c111.b⟩
    else if d.r > d.b then
      ⟨(1-d.r) * c000.r + (d.r-d.b) * c100.r + (d.b-d.g) * c101.r + d.g * c111.r,
       (1-d.r) * c000.g + (d.r-d.b) * c100.g + (d.b-d.g) * c101.g + d.g * c111.g,
       (1-d.r) * c000.b + (d.r-d.b) * c100.b + (d.b-d.g) * c101.b + d.g * c111.b⟩
    else
      ⟨(1-d.b) * c000.r + (d.b-d.r) * c001.r + (d.r-d.g) * c101.r + d.g * c111.r,
       (1-d.b) * c000.g + (d.b-d.r) * c001.g + (d.r-d.g) * c101.g + d.g * c111.g,
       (1-d.b) * c000.b + (d.b-d.r) * c001.b + (d.r-d.g) * c101.b + d.g * c111.b⟩
  else
    if d.b > d.g then
      ⟨(1-d.b) * c000.r + (d.b-d.g) * c001.r + (d.g-d.r) * c011.r + d.r * c111.r,
       (1-d.b) * c000.g + (d.b-d.g) * c001.g + (d.g-d.r) * c011.g + d.r * c111.g,
       (1-d.b) * c000.b + (d.b-d.g) * c001.b + (d.g-d.r) * c011.b + d.r * c111.b⟩
    else if d.b > d.r then
      ⟨(1-d.g) * c000.r + (d.g-d.b) * c010.r + (d.b-d.r) * c011.r + d.r * c111.r,
       (1-d.g) * c000.g + (d.g-d.b) * c010.g + (d.b-d.r) * c011.g + d.r * c111.g,
       (1-d.g) * c000.b + (d.g-d.b) * c010.b + (d.b-d.r) * c011.b + d.r * c111.b⟩
    else
      ⟨(1-d.g) * c000.r + (d.g-d.r) * c010.r + (d.r-d.b) * c110.r + d.b * c111.r,
       (1-d.g) * c000.g + (d.g-d.r) * c010.g + (d.r-d.b) * c110.g + d.b * c111.g,
       (1-d.g) * c000.b + (d.g-d.r) * c010.b + (d.r-d.b) * c110.b + d.b * c111.b⟩

/-- `DEFINE_INTERP_FUNC(name, nbits)`: scale the integer channel values into
grid-index space and call the chosen interpolation; `(1<<nbits)` is `2^nbits`. -/
def interp_func (nbits : ℕ) (interp : LUT3DContext → rgbvec → rgbvec)
    (lut3d : LUT3DContext) (r g b : ℕ) : rgbvec :=
  let scale : ℚ := (1 / ((2 ^ nbits : ℚ) - 1)) * ((lut3d.lutsize : ℚ) - 1)
  interp lut3d ⟨(r : ℚ) * scale, (g : ℚ) * scale, (b : ℚ) * scale⟩

/-- `av_clip_uint8` / `av_clip_uint16`: clamp an int to `[0, 2^nbits - 1]`. -/
def av_clip_uintN (nbits : ℕ) (a : ℤ) : ℤ := max 0 (min (2 ^ nbits - 1) a)

/-- One pixel of the `FILTER(nbits)` macro body: interpolate from the source
channel values at offsets `rr`, `gg`, `bb`, write the three clipped channels,
and copy alpha when not operating in place on a 4-component format.
`src` is the input pixel (channel values at sample offsets), `fresh` the
content of a freshly allocated output buffer. -/
def filter_pixel (nbits : ℕ) (interp : LUT3DContext → rgbvec → rgbvec)
    (lut3d : LUT3DContext) (rr gg bb aa step : ℕ) (direct : Bool)
    (src : ℕ → ℕ) (fresh : ℕ → ℤ) : ℕ → ℤ :=
  let vec := interp_func nbits interp lut3d (src rr) (src gg) (src bb)
  let dst0 : ℕ → ℤ := if direct then (fun o => (src o : ℤ)) else fresh
  let dst1 := Function.update dst0 rr (av_clip_uintN nbits (truncQ (vec.r * ((2 ^ nbits : ℚ) - 1))))
  let dst2 := Function.update dst1 gg (av_clip_uintN nbits (truncQ (vec.g * ((2 ^ nbits : ℚ) - 1))))
  let dst3 := Function.update dst2 bb (av_clip_uintN nbits (truncQ (vec.b * ((2 ^ nbits : ℚ) - 1))))
  if direct = false ∧ step = 4 then Function.update dst3 aa ((src aa : ℤ)) else dst3

/-! ### Text-stream utilities used by the parsers -/

/-- A line as returned by one `fgets` call (terminating newline included). -/
abbrev Line := List Char

/-- Characters of a string literal. -/
def strL (s : String) : Line := s.data

/-- `av_isspace`: the six C whitespace characters. -/
def av_isspace (c : Char) : Bool :=
  c = ' ' || c = '\t' || c = '\n' || c = Char.ofNat 11 || c = Char.ofNat 12 || c = '\r'

/-- `skip_line`: after leading whitespace the line is empty or a `#` comment. -/
def skip_line (l : Line) : Bool :=
  match l.dropWhile (fun c => av_isspace c) with
  | [] => true
  | c :: _ => c = '#'

/-- `!strncmp(s, p, strlen p)`: `p` is a literal prefix of the line `s`. -/
def pfx : List Char → List Char → Bool
  | [], _ => true
  | _ :: _, [] => false
  | a :: as, b :: bs => if a = b then pfx as bs else false

/-- Numeric value of a decimal digit character. -/
def digVal (c : Char) : ℕ := c.toNat - '0'.toNat

/-- Split a leading run of decimal digits from the rest. -/
def takeDigits (s : List Char) : List Char × List Char :=
  (s.takeWhile Char.isDigit, s.dropWhile Char.isDigit)

/-- Value of a decimal digit string. -/
def natOfDigits (ds : List Char) : ℕ := ds.foldl (fun acc c => 10 * acc + digVal c) 0

def isOctDigit (c : Char) : Bool := '0' ≤ c && c ≤ '7'

def isHexDigit (c : Char) : Bool :=
  c.isDigit || ('a' ≤ c && c ≤ 'f') || ('A' ≤ c && c ≤ 'F')

def hexVal (c : Char) : ℕ :=
  if c.isDigit then digVal c
  else if 'a' ≤ c && c ≤ 'f' then c.toNat - 'a'.toNat + 10
  else if 'A' ≤ c && c ≤ 'F' then c.toNat - 'A'.toNat + 10
  else 0

/-- `strtol(s, NULL, 0)`: optional whitespace and sign, then a hex, octal or
decimal digit string selected by the C base-0 rules; no digits yields 0. -/
def strtol (s : List Char) : ℤ :=
  let s1 := s.dropWhile (fun c => av_isspace c)
  let signed : ℤ × List Char :=
    match s1 with
    | '-' :: r => (-1, r)
    | '+' :: r => (1, r)
    | _ => (1, s1)
  match signed.2 with
  | '0' :: 'x' :: r =>
      signed.1 * ((r.takeWhile (fun c => isHexDigit c)).foldl (fun acc c => 16 * acc + hexVal c) 0 : ℕ)
  | '0' :: 'X' :: r =>
      signed.1 * ((r.takeWhile (fun c => isHexDigit c)).foldl (fun acc c => 16 * acc + hexVal c) 0 : ℕ)
  | '0' :: r =>
      signed.1 * ((r.takeWhile (fun c => isOctDigit c)).foldl (fun acc c => 8 * acc + digVal c) 0 : ℕ)
  | r => signed.1 * (natOfDigits (r.takeWhile Char.isDigit) : ℕ)

/-- Optional exponent part of a float (`e`/`E`, sign, digits); without digits
nothing is consumed. -/
def scanExp (s : List Char) : ℤ × List Char :=
  match s with
  | [] => (0, [])
  | e :: rest =>
    if e = 'e' ∨ e = 'E' then
      let signed : ℤ × List Char :=
        match rest with
        | '-' :: t => (-1, t)
        | '+' :: t => (1, t)
        | _ => (1, rest)
      let ds := takeDigits signed.2
      if ds.1 = [] then (0, s) else (signed.1 * (natOfDigits ds.1 : ℕ), ds.2)
    else (0, s)

/-- One `%f` conversion of `sscanf`: leading whitespace, optional sign, a digit
string with optional fraction (at least one digit overall), optional exponent.
Returns the value and the rest, or `none` on a matching failure. -/
def scanFloat (s : List Char) : Option (ℚ × List Char) :=
  let s1 := s.dropWhile (fun c => av_isspace c)
  let signed : ℚ × List Char :=
    match s1 with
    | '-' :: r => (-1, r)
    | '+' :: r => (1, r)
    | _ => (1, s1)
  let ip := takeDigits signed.2
  match ip.2 with
  | '.' :: r2 =>
    let fp := takeDigits r2
    if ip.1 = [] ∧ fp.1 = [] then none
    else
      let m : ℚ := (natOfDigits ip.1 : ℚ) + (natOfDigits fp.1 : ℚ) / (10 : ℚ) ^ fp.1.length
      let e := scanExp fp.2
      some (signed.1 * m * (10 : ℚ) ^ e.1, e.2)
  | _ =>
    if ip.1 = [] then none
    else
      let e := scanExp ip.2
      some (signed.1 * (natOfDigits ip.1 : ℚ) * (10 : ℚ) ^ e.1, e.2)

/-- One `%d` conversion of `sscanf`. -/
def scanInt (s : List Char) : Option (ℤ × List Char) :=
  let s1 := s.dropWhile (fun c => av_isspace c)
  let signed : ℤ × List Char :=
    match s1 with
    | '-' :: r => (-1, r)
    | '+' :: r => (1, r)
    | _ => (1, s1)
  let ds := takeDigits signed.2
  if ds.1 = [] then none else some (signed.1 * (natOfDigits ds.1 : ℕ), ds.2)

/-- `sscanf(s, "%f %f %f", ...)`: number of conversions and converted values. -/
def scanf3 (s : List Char) : ℕ × List ℚ :=
  match scanFloat s with
  | none => (0, [])
  | some (v1, r1) =>
    match scanFloat r1 with
    | none => (1, [v1])
    | some (v2, r2) =>
      match scanFloat r2 with
      | none => (2, [v1, v2])
      | some (v3, _) => (3, [v1, v2, v3])

/-- `sscanf(s, "%d %d %d", ...)`: number of conversions and converted values. -/
def scand3 (s : List Char) : ℕ × List ℤ :=
  match scanInt s with
  | none => (0, [])
  | some (v1, r1) =>
    match scanInt r1 with
    | none => (1, [v1])
    | some (v2, r2) =>
      match scanInt r2 with
      | none => (2, [v1, v2])
      | some (v3, _) => (3, [v1, v2, v3])

/-- `sscanf` assignment semantics for a float triple: components the conversion
reached are overwritten, the rest keep their previous values. -/
def upd3 (old : ℚ × ℚ × ℚ) (res : ℕ × List ℚ) : ℚ × ℚ × ℚ :=
  (res.2.getD 0 old.1, res.2.getD 1 old.2.1, res.2.getD 2 old.2.2)

/-! ### The LUT loaders -/

/-- Error kinds, one per distinct failure site of the C code
(`NEXT_LINE`'s EOF report, `AVERROR_INVALIDDATA` returns, the "Too large"
check, the "3D LUT is empty" check, extension handling in `init`). -/
inductive LutError
  | unexpectedEOF
  | invalidData
  | tooLarge
  | emptyLut
  | unrecognizedExt
  | noExtension
  deriving DecidableEq

/-- `NEXT_LINE(skip_line(line))`: read lines until a non-skippable one;
exhaustion is the `NEXT_LINE` EOF error at the call site. -/
def nextDataLine : List Line → Option (Line × List Line)
  | [] => none
  | l :: ls => if skip_line l then nextDataLine ls else some (l, ls)

/-- The cells `(k, j, i)` in the nesting order of all the fill loops
(`k` outer, `j` middle, `i` inner). -/
def cellList (n : ℕ) : List (ℕ × ℕ × ℕ) :=
  ((List.range n).map (fun k =>
    ((List.range n).map (fun j =>
      (List.range n).map (fun i => (k, j, i)))).flatten)).flatten

/-- Store a sample at `lut[k][j][i]`. -/
def writeLut (g : Grid) (c : ℕ × ℕ × ℕ) (v : rgbvec) : Grid :=
  fun a b d =>
    if a = (c.1 : ℤ) ∧ b = (c.2.1 : ℤ) ∧ d = (c.2.2 : ℤ) then v else g a b d

/-- One cell of `parse_dat`: the `sscanf` result is not checked, components it
did not convert keep the previous cell contents. -/
def datCell (g : Grid) (c : ℕ × ℕ × ℕ) (l : Line) : Grid :=
  let old := g c.1 c.2.1 c.2.2
  let res := upd3 (old.r, old.g, old.b) (scanf3 l)
  writeLut g c ⟨res.1, res.2.1, res.2.2⟩

/-- Fill loop of `parse_dat`. -/
def datGo : List (ℕ × ℕ × ℕ) → List Line → Grid → Except LutError Grid
  | [], _, g => .ok g
  | c :: cs, lines, g =>
    match nextDataLine lines with
    | none => .error .unexpectedEOF
    | some (l, rest) => datGo cs rest (datCell g c l)

/-- `parse_dat` (`lutsize` was set to 33 by `init` before the call). -/
def parse_dat (lut3d : LUT3DContext) (lines : List Line) : Except LutError LUT3DContext :=
  match datGo (cellList lut3d.lutsize.toNat) lines lut3d.lut with
  | .ok g => .ok { lut3d with lut := g }
  | .error e => .error e

/-- One cell of `parse_3dl`: integer triple required, divided by `16*16*16`. -/
def tdlCell (g : Grid) (c : ℕ × ℕ × ℕ) (l : Line) : Except LutError Grid :=
  let res := scand3 l
  if res.1 ≠ 3 then .error .invalidData
  else .ok (writeLut g c
    ⟨(res.2.getD 0 0 : ℚ) / (16*16*16), (res.2.getD 1 0 : ℚ) / (16*16*16),
     (res.2.getD 2 0 : ℚ) / (16*16*16)⟩)

/-- Fill loop of `parse_3dl`. -/
def tdlGo : List (ℕ × ℕ × ℕ) → List Line → Grid → Except LutError Grid
  | [], _, g => .ok g
  | c :: cs, lines, g =>
    match nextDataLine lines with
    | none => .error .unexpectedEOF
    | some (l, rest) =>
      match tdlCell g c l with
      | .error e => .error e
      | .ok g2 => tdlGo cs rest g2

/-- `parse_3dl`: fixed size 17, one discarded header line, then the fill loop. -/
def parse_3dl (lut3d : LUT3DContext) (lines : List Line) : Except LutError LUT3DContext :=
  let ctx1 := { lut3d with lutsize := 17 }
  match lines with
  | [] => .error .invalidData
  | _hdr :: rest =>
    match tdlGo (cellList 17) rest ctx1.lut with
    | .ok g => .ok { ctx1 with lut := g }
    | .error e => .error e

/-- Scan for the `LUT_3D_SIZE ` line of `parse_cube`; its `strtol` argument is
the line past the 12-character prefix. -/
def cubeFindSize : List Line → Option (ℤ × List Line)
  | [] => none
  | l :: ls =>
    if pfx (strL "LUT_3D_SIZE ") l then some (strtol (l.drop 12), ls)
    else cubeFindSize ls

/-- The inner `do { NEXT_LINE(0); if DOMAIN_ ... continue; } while (skip_line)`
of `parse_cube`: a `DOMAIN_MIN `/`DOMAIN_MAX ` line updates the scaling vector
and then `continue` re-evaluates `skip_line` on that same line, any other
skippable line loops, anything else leaves the loop with that line in hand. -/
def cubeReadCell : List Line → ℚ × ℚ × ℚ → ℚ × ℚ × ℚ →
    Except LutError (Line × List Line × (ℚ × ℚ × ℚ) × (ℚ × ℚ × ℚ))
  | [], _, _ => .error .unexpectedEOF
  | l :: ls, mn, mx =>
    if pfx (strL "DOMAIN_") l then
      if pfx (strL "MIN ") (l.drop 7) then
        let mn2 := upd3 mn (scanf3 (l.drop 11))
        if skip_line l then cubeReadCell ls mn2 mx else .ok (l, ls, mn2, mx)
      else if pfx (strL "MAX ") (l.drop 7) then
        let mx2 := upd3 mx (scanf3 (l.drop 11))
        if skip_line l then cubeReadCell ls mn mx2 else .ok (l, ls, mn, mx2)
      else .error .invalidData
    else if skip_line l then cubeReadCell ls mn mx
    else .ok (l, ls, mn, mx)

/-- Fill loop of `parse_cube`: each value is scaled by `max[c] - min[c]`. -/
def cubeGo : List (ℕ × ℕ × ℕ) → List Line → ℚ × ℚ × ℚ → ℚ × ℚ × ℚ → Grid →
    Except LutError Grid
  | [], _, _, _, g => .ok g
  | c :: cs, lines, mn, mx, g =>
    match cubeReadCell lines mn mx with
    | .error e => .error e
    | .ok (l, rest, mn2, mx2) =>
      let res := scanf3 l
      if res.1 ≠ 3 then .error .invalidData
      else
        let v : rgbvec :=
          ⟨res.2.getD 0 0 * (mx2.1 - mn2.1), res.2.getD 1 0 * (mx2.2.1 - mn2.2.1),
           res.2.getD 2 0 * (mx2.2.2 - mn2.2.2)⟩
        cubeGo cs rest mn2 mx2 (writeLut g c v)

/-- `parse_cube`: no `LUT_3D_SIZE` line means the scan loop ends with success;
a declared size above `MAX_LEVEL` (36) is the "Too large 3D LUT" error. -/
def parse_cube (lut3d : LUT3DContext) (lines : List Line) : Except LutError LUT3DContext :=
  match cubeFindSize lines with
  | none => .ok lut3d
  | some (size, rest) =>
    if size > 36 then .error .tooLarge
    else
      match cubeGo (cellList size.toNat) rest (0, 0, 0) (1, 1, 1) lut3d.lut with
      | .ok g => .ok { lut3d with lut := g, lutsize := size }
      | .error e => .error e

/-- Write one entry of the `rgb_map` permutation. -/
def set3 (m : ℕ × ℕ × ℕ) (id v : ℕ) : ℕ × ℕ × ℕ :=
  match id with
  | 0 => (v, m.2.1, m.2.2)
  | 1 => (m.1, v, m.2.2)
  | _ => (m.1, m.2.1, v)

/-- `SET_COLOR(id)` of `parse_m3d`: skip whitespace, switch on the character
(`r`, `g`, `b` set the mapping, anything else is ignored), skip the token. -/
def setColor (id : ℕ) (st : (ℕ × ℕ × ℕ) × List Char) : (ℕ × ℕ × ℕ) × List Char :=
  let p := st.2.dropWhile (fun c => av_isspace c)
  let m2 :=
    match p.head? with
    | some 'r' => set3 st.1 id 0
    | some 'g' => set3 st.1 id 1
    | some 'b' => set3 st.1 id 2
    | _ => st.1
  (m2, p.dropWhile (fun c => !av_isspace c))

/-- Header scan of `parse_m3d`: `in`, `out` and `values` lines; a `values`
line breaks the loop. -/
def m3dScan : List Line → ℤ → ℤ → ℕ × ℕ × ℕ → ℤ × ℤ × (ℕ × ℕ × ℕ) × List Line
  | [], inv, outv, m => (inv, outv, m, [])
  | l :: ls, inv, outv, m =>
    if pfx (strL "in") l then m3dScan ls (strtol (l.drop 2)) outv m
    else if pfx (strL "out") l then m3dScan ls inv (strtol (l.drop 3)) m
    else if pfx (strL "values") l then
      let st3 := setColor 2 (setColor 1 (setColor 0 (m, l.drop 6)))
      (inv, outv, st3.1, ls)
    else m3dScan ls inv outv m

/-- `for (size = 1; size*size*size < in; size++);` of `parse_m3d`. -/
def m3d_size_loop (inv : ℤ) (size : ℕ) : ℕ :=
  if (size : ℤ) * size * size < inv then m3d_size_loop inv (size + 1) else size
termination_by (inv.toNat + 1) - size
decreasing_by
  rename_i h
  have hsz : (size : ℤ) < inv := by
    rcases Nat.eq_zero_or_pos size with h1 | h1
    · subst h1; simpa using h
    · have h2 : (1 : ℤ) ≤ (size : ℤ) := by exact_mod_cast h1
      nlinarith [h2]
  omega

/-- One cell of `parse_m3d`: float triple required, permuted by `rgb_map`,
scaled by `1/(out-1)`. -/
def m3dCell (m : ℕ × ℕ × ℕ) (scale : ℚ) (g : Grid) (c : ℕ × ℕ × ℕ) (l : Line) :
    Except LutError Grid :=
  let res := scanf3 l
  if res.1 ≠ 3 then .error .invalidData
  else
    .ok (writeLut g c
      ⟨res.2.getD m.1 0 * scale, res.2.getD m.2.1 0 * scale, res.2.getD m.2.2 0 * scale⟩)

/-- Fill loop of `parse_m3d`: `NEXT_LINE(0)` takes every line, skippable or not. -/
def m3dGo (m : ℕ × ℕ × ℕ) (scale : ℚ) :
    List (ℕ × ℕ × ℕ) → List Line → Grid → Except LutError Grid
  | [], _, g => .ok g
  | c :: cs, lines, g =>
    match lines with
    | [] => .error .unexpectedEOF
    | l :: rest =>
      match m3dCell m scale g c l with
      | .error e => .error e
      | .ok g2 => m3dGo m scale cs rest g2

/-- `parse_m3d`: header scan, the `in`/`out` presence check, size derivation,
then the fill loop. -/
def parse_m3d (lut3d : LUT3DContext) (lines : List Line) : Except LutError LUT3DContext :=
  let sc := m3dScan lines (-1) (-1) (0, 1, 2)
  if sc.1 = -1 ∨ sc.2.1 = -1 then .error .invalidData
  else
    let size := m3d_size_loop sc.1 1
    let scale : ℚ := 1 / ((sc.2.1 : ℚ) - 1)
    match m3dGo sc.2.2.1 scale (cellList size) sc.2.2.2 lut3d.lut with
    | .ok g => .ok { lut3d with lut := g, lutsize := (size : ℤ) }
    | .error e => .error e

/-- `set_identity_matrix`: cell `[k][j][i]` holds `(k*c, j*c, i*c)` with
`c = 1/(size-1)`; cells outside the loop ranges are untouched. -/
def set_identity_matrix (lut3d : LUT3DContext) (size : ℤ) : LUT3DContext :=
  let c : ℚ := 1 / ((size : ℚ) - 1)
  { lut := fun x y z =>
      if 0 ≤ x ∧ x < size ∧ 0 ≤ y ∧ y < size ∧ 0 ≤ z ∧ z < size then
        ⟨(x : ℚ) * c, (y : ℚ) * c, (z : ℚ) * c⟩
      else lut3d.lut x y z,
    lutsize := size }

/-- The zero-initialized filter context (`priv` is zero-allocated). -/
def ctx0 : LUT3DContext := { lut := fun _ _ _ => ⟨0, 0, 0⟩, lutsize := 0 }

/-- The characters after the last `.` of a path (`strrchr` plus `ext++`). -/
def afterLastDot : List Char → Option (List Char)
  | [] => none
  | c :: rest =>
    match afterLastDot rest with
    | some e => some e
    | none => if c = '.' then some rest else none

/-- `!av_strcasecmp(a, b)`: case-insensitive equality. -/
def av_strcasecmp_eq (a b : List Char) : Bool :=
  a.map Char.toLower == b.map Char.toLower

/-- `init`: no configured file synthesizes the identity grid of size 32;
otherwise dispatch on the path's extension and reject an empty result grid.
A file is its path together with the lines `fgets` would produce. -/
def init (file : Option (List Char × List Line)) : Except LutError LUT3DContext :=
  match file with
  | none => .ok (set_identity_matrix ctx0 32)
  | some (path, lines) =>
    match afterLastDot path with
    | none => .error .noExtension
    | some ext =>
      let res : Except LutError LUT3DContext :=
        if av_strcasecmp_eq ext (strL "dat") then parse_dat { ctx0 with lutsize := 33 } lines
        else if av_strcasecmp_eq ext (strL "3dl") then parse_3dl ctx0 lines
        else if av_strcasecmp_eq ext (strL "cube") then parse_cube ctx0 lines
        else if av_strcasecmp_eq ext (strL "m3d") then parse_m3d ctx0 lines
        else .error .unrecognizedExt
      match res with
      | .ok lut3d => if lut3d.lutsize = 0 then .error .emptyLut else .ok lut3d
      | .error e => .error e

/-! ### Helper lemmas -/

lemma truncQ_add_nat (n : ℕ) (x : ℚ) (h0 : 0 ≤ x) (h1 : x < 1) :
    truncQ ((n : ℚ) + x) = (n : ℤ) := by
  unfold truncQ
  rw [if_pos (by positivity)]
  rw [add_comm, Int.floor_add_nat, Int.floor_eq_zero_iff.mpr ⟨h0, h1⟩, zero_add]

lemma truncQ_natCast (n : ℕ) : truncQ ((n : ℚ)) = (n : ℤ) := by
  unfold truncQ
  rw [if_pos (by positivity), Int.floor_natCast]

lemma truncQ_intCast (z : ℤ) : truncQ ((z : ℚ)) = z := by
  unfold truncQ
  split <;> simp

lemma lerp_zero (v0 v1 : rgbvec) : lerp v0 v1 0 = v0 := by
  simp [lerp, lerpf]

lemma NEAR_natCast (n : ℕ) : NEAR ((n : ℚ)) = (n : ℤ) :=
  truncQ_add_nat n (1/2) (by norm_num) (by norm_num)

lemma PREV_natCast (n : ℕ) : PREV ((n : ℚ)) = (n : ℤ) := truncQ_natCast n

lemma NEXT_natCast (n : ℕ) : NEXT ((n : ℚ)) = (n : ℤ) + 1 := by
  unfold NEXT
  rw [truncQ_natCast]

lemma natCast_sub_self (n : ℕ) : (n : ℚ) - (((n : ℤ) : ℚ)) = 0 := by
  push_cast
  ring

/-- All three strategies evaluated exactly at an integer grid vertex return the
stored sample. -/
lemma interp_vertex (lut3d : LUT3DContext) (i j k : ℕ) :
    interp_nearest lut3d ⟨(i : ℚ), (j : ℚ), (k : ℚ)⟩ = lut3d.lut i j k ∧
    interp_trilinear lut3d ⟨(i : ℚ), (j : ℚ), (k : ℚ)⟩ = lut3d.lut i j k ∧
    interp_tetrahedral lut3d ⟨(i : ℚ), (j : ℚ), (k : ℚ)⟩ = lut3d.lut i j k := by
  refine ⟨?_, ?_, ?_⟩
  · simp only [interp_nearest, NEAR_natCast]
  · simp only [interp_trilinear, PREV_natCast, NEXT_natCast, natCast_sub_self, lerp_zero]
  · simp only [interp_tetrahedral, PREV_natCast, NEXT_natCast, natCast_sub_self]
    simp [lt_irrefl, sub_zero, sub_self, mul_one, one_mul, mul_zero, zero_mul,
      add_zero, zero_add]

/-- C7: for every grid and every coordinate whose three components are exactly
integer grid indices (all fractional offsets 0), each of the three strategies
(nearest, trilinear, tetrahedral) returns exactly the sample stored at that
vertex. -/
theorem strategies_at_vertex (lut3d : LUT3DContext) (i j k : ℕ) :
    interp_nearest lut3d ⟨(i : ℚ), (j : ℚ), (k : ℚ)⟩ = lut3d.lut i j k ∧
    interp_trilinear lut3d ⟨(i : ℚ), (j : ℚ), (k : ℚ)⟩ = lut3d.lut i j k ∧
    interp_tetrahedral lut3d ⟨(i : ℚ), (j : ℚ), (k : ℚ)⟩ = lut3d.lut i j k :=
  interp_vertex lut3d i j k

/-- C2: with no LUT file configured, `init` succeeds and builds the identity
grid of size exactly 32, whose cell at axis indices `(i, j, k)` (stored as
`lut[k][j][i]`) is `(k/31, j/31, i/31)`. -/
theorem init_no_file_identity :
    init none = .ok (set_identity_matrix ctx0 32) ∧
    (set_identity_matrix ctx0 32).lutsize = 32 ∧
    ∀ i j k : ℤ, 0 ≤ i → i ≤ 31 → 0 ≤ j → j ≤ 31 → 0 ≤ k → k ≤ 31 →
      (set_identity_matrix ctx0 32).lut k j i =
        ⟨(k : ℚ) / 31, (j : ℚ) / 31, (i : ℚ) / 31⟩ := by
  refine ⟨rfl, rfl, ?_⟩
  intro i j k hi0 hi1 hj0 hj1 hk0 hk1
  simp only [set_identity_matrix]
  rw [if_pos (by constructor <;> omega)]
  simp only [rgbvec.mk.injEq]
  norm_num
  refine ⟨by ring, by ring, by ring⟩

/-- Witness for C2 at axis indices `(1, 2, 3)`. -/
theorem init_no_file_identity_witness :
    (set_identity_matrix ctx0 32).lut 3 2 1 =
      ⟨((3:ℤ) : ℚ) / 31, ((2:ℤ) : ℚ) / 31, ((1:ℤ) : ℚ) / 31⟩ :=
  init_no_file_identity.2.2 1 2 3 (by decide) (by decide) (by decide)
    (by decide) (by decide) (by decide)

/-! ### Statement support for the tetrahedral branch analysis -/

/-- The six branch-selection conditions of `interp_tetrahedral`, in the order
of the source's if-tree. -/
def tetraCond (dr dg db : ℚ) : ℕ → Prop
  | 0 => dr > dg ∧ dg > db
  | 1 => dr > dg ∧ ¬(dg > db) ∧ dr > db
  | 2 => dr > dg ∧ ¬(dg > db) ∧ ¬(dr > db)
  | 3 => ¬(dr > dg) ∧ db > dg
  | 4 => ¬(dr > dg) ∧ ¬(db > dg) ∧ db > dr
  | 5 => ¬(dr > dg) ∧ ¬(db > dg) ∧ ¬(db > dr)
  | _ => False

/-- The four weights of each branch. -/
def tetraWeights (dr dg db : ℚ) : ℕ → ℚ × ℚ × ℚ × ℚ
  | 0 => (1 - dr, dr - dg, dg - db, db)
  | 1 => (1 - dr, dr - db, db - dg, dg)
  | 2 => (1 - db, db - dr, dr - dg, dg)
  | 3 => (1 - db, db - dg, dg - dr, dr)
  | 4 => (1 - dg, dg - db, db - dr, dr)
  | 5 => (1 - dg, dg - dr, dr - db, db)
  | _ => (0, 0, 0, 0)

/-- The four unit-cube corner samples of each branch (base corner `(i,j,k)`). -/
def tetraCorners (lut3d : LUT3DContext) (i j k : ℤ) : ℕ → rgbvec × rgbvec × rgbvec × rgbvec
  | 0 => (lut3d.lut i j k, lut3d.lut (i+1) j k, lut3d.lut (i+1) (j+1) k, lut3d.lut (i+1) (j+1) (k+1))
  | 1 => (lut3d.lut i j k, lut3d.lut (i+1) j k, lut3d.lut (i+1) j (k+1), lut3d.lut (i+1) (j+1) (k+1))
  | 2 => (lut3d.lut i j k, lut3d.lut i j (k+1), lut3d.lut (i+1) j (k+1), lut3d.lut (i+1) (j+1) (k+1))
  | 3 => (lut3d.lut i j k, lut3d.lut i j (k+1), lut3d.lut i (j+1) (k+1), lut3d.lut (i+1) (j+1) (k+1))
  | 4 => (lut3d.lut i j k, lut3d.lut i (j+1) k, lut3d.lut i (j+1) (k+1), lut3d.lut (i+1) (j+1) (k+1))
  | 5 => (lut3d.lut i j k, lut3d.lut i (j+1) k, lut3d.lut (i+1) (j+1) k, lut3d.lut (i+1) (j+1) (k+1))
  | _ => (lut3d.lut i j k, lut3d.lut i j k, lut3d.lut i j k, lut3d.lut i j k)

/-- Channel-wise weighted sum of four corner samples. -/
def rv_comb (w : ℚ × ℚ × ℚ × ℚ) (c : rgbvec × rgbvec × rgbvec × rgbvec) : rgbvec :=
  ⟨w.1 * c.1.r + w.2.1 * c.2.1.r + w.2.2.1 * c.2.2.1.r + w.2.2.2 * c.2.2.2.r,
   w.1 * c.1.g + w.2.1 * c.2.1.g + w.2.2.1 * c.2.2.1.g + w.2.2.2 * c.2.2.2.g,
   w.1 * c.1.b + w.2.1 * c.2.1.b + w.2.2.1 * c.2.2.1.b + w.2.2.2 * c.2.2.2.b⟩

/-- Sum of the four weights. -/
def wsum4 (w : ℚ × ℚ × ℚ × ℚ) : ℚ := w.1 + w.2.1 + w.2.2.1 + w.2.2.2

/-- The six conditions are mutually exclusive and exhaustive. -/
lemma tetraCond_exun (dr dg db : ℚ) : ∃! n : ℕ, tetraCond dr dg db n := by
  by_cases h1 : dr > dg
  · by_cases h2 : dg > db
    · refine ⟨0, ⟨h1, h2⟩, ?_⟩
      intro m hm
      rcases m with _ | _ | _ | _ | _ | _ | m <;> simp only [tetraCond] at hm <;>
        first | rfl | tauto
    · by_cases h3 : dr > db
      · refine ⟨1, ⟨h1, h2, h3⟩, ?_⟩
        intro m hm
        rcases m with _ | _ | _ | _ | _ | _ | m <;> simp only [tetraCond] at hm <;>
          first | rfl | tauto
      · refine ⟨2, ⟨h1, h2, h3⟩, ?_⟩
        intro m hm
        rcases m with _ | _ | _ | _ | _ | _ | m <;> simp only [tetraCond] at hm <;>
          first | rfl | tauto
  · by_cases h2 : db > dg
    · refine ⟨3, ⟨h1, h2⟩, ?_⟩
      intro m hm
      rcases m with _ | _ | _ | _ | _ | _ | m <;> simp only [tetraCond] at hm <;>
        first | rfl | tauto
    · by_cases h3 : db > dr
      · refine ⟨4, ⟨h1, h2, h3⟩, ?_⟩
        intro m hm
        rcases m with _ | _ | _ | _ | _ | _ | m <;> simp only [tetraCond] at hm <;>
          first | rfl | tauto
      · refine ⟨5, ⟨h1, h2, h3⟩, ?_⟩
        intro m hm
        rcases m with _ | _ | _ | _ | _ | _ | m <;> simp only [tetraCond] at hm <;>
          first | rfl | tauto

/-- C1: for every fractional-remainder triple in `[0,1)^3`, tetrahedral
interpolation selects exactly one of six branches by the pairwise ordering of
`dr, dg, db`, and in the selected branch every channel is the weighted sum of
exactly 4 of the 8 unit-cube corner samples with weights
`{1 - max, two mid-differences, min}`, summing exactly to 1. -/
theorem tetrahedral_branches (lut3d : LUT3DContext) (i j k : ℕ) (dr dg db : ℚ)
    (hr0 : 0 ≤ dr) (hr1 : dr < 1) (hg0 : 0 ≤ dg) (hg1 : dg < 1)
    (hb0 : 0 ≤ db) (hb1 : db < 1) :
    (∃! n : ℕ, tetraCond dr dg db n) ∧
    ∀ n : ℕ, tetraCond dr dg db n →
      interp_tetrahedral lut3d ⟨(i : ℚ) + dr, (j : ℚ) + dg, (k : ℚ) + db⟩ =
        rv_comb (tetraWeights dr dg db n) (tetraCorners lut3d (i : ℤ) (j : ℤ) (k : ℤ) n) ∧
      wsum4 (tetraWeights dr dg db n) = 1 ∧
      (tetraWeights dr dg db n).1 = 1 - max dr (max dg db) ∧
      (tetraWeights dr dg db n).2.2.2 = min dr (min dg db) := by
  refine ⟨tetraCond_exun dr dg db, ?_⟩
  intro n hn
  have hti : truncQ ((i : ℚ) + dr) = (i : ℤ) := truncQ_add_nat i dr hr0 hr1
  have htj : truncQ ((j : ℚ) + dg) = (j : ℤ) := truncQ_add_nat j dg hg0 hg1
  have htk : truncQ ((k : ℚ) + db) = (k : ℤ) := truncQ_add_nat k db hb0 hb1
  have er : (i : ℚ) + dr - ((i : ℤ) : ℚ) = dr := by push_cast; ring
  have eg : (j : ℚ) + dg - ((j : ℤ) : ℚ) = dg := by push_cast; ring
  have eb : (k : ℚ) + db - ((k : ℤ) : ℚ) = db := by push_cast; ring
  simp only [interp_tetrahedral, PREV, NEXT, hti, htj, htk, er, eg, eb]
  rcases n with _ | _ | _ | _ | _ | _ | n <;> simp only [tetraCond] at hn
  · obtain ⟨h1, h2⟩ := hn
    refine ⟨?_, ?_, ?_, ?_⟩
    · rw [if_pos h1, if_pos h2]
      simp only [rv_comb, tetraCorners, tetraWeights]
    · simp only [wsum4, tetraWeights]; ring
    · simp only [tetraWeights]
      rw [max_eq_left h2.le, max_eq_left h1.le]
    · simp only [tetraWeights]
      rw [min_eq_right h2.le, min_eq_right (h2.le.trans h1.le)]
  · obtain ⟨h1, h2, h3⟩ := hn
    refine ⟨?_, ?_, ?_, ?_⟩
    · rw [if_pos h1, if_neg h2, if_pos h3]
      simp only [rv_comb, tetraCorners, tetraWeights]
    · simp only [wsum4, tetraWeights]; ring
    · simp only [tetraWeights]
      rw [max_eq_right (not_lt.mp h2), max_eq_left h3.le]
    · simp only [tetraWeights]
      rw [min_eq_left (not_lt.mp h2), min_eq_right h1.le]
  · obtain ⟨h1, h2, h3⟩ := hn
    refine ⟨?_, ?_, ?_, ?_⟩
    · rw [if_pos h1, if_neg h2, if_neg h3]
      simp only [rv_comb, tetraCorners, tetraWeights]
    · simp only [wsum4, tetraWeights]; ring
    · simp only [tetraWeights]
      rw [max_eq_right (not_lt.mp h2), max_eq_right (not_lt.mp h3)]
    · simp only [tetraWeights]
      rw [min_eq_left (not_lt.mp h2), min_eq_right h1.le]
  · obtain ⟨h1, h2⟩ := hn
    refine ⟨?_, ?_, ?_, ?_⟩
    · rw [if_neg h1, if_pos h2]
      simp only [rv_comb, tetraCorners, tetraWeights]
    · simp only [wsum4, tetraWeights]; ring
    · simp only [tetraWeights]
      rw [max_eq_right h2.le, max_eq_right ((not_lt.mp h1).trans h2.le)]
    · simp only [tetraWeights]
      rw [min_eq_left h2.le, min_eq_left (not_lt.mp h1)]
  · obtain ⟨h1, h2, h3⟩ := hn
    refine ⟨?_, ?_, ?_, ?_⟩
    · rw [if_neg h1, if_neg h2, if_pos h3]
      simp only [rv_comb, tetraCorners, tetraWeights]
    · simp only [wsum4, tetraWeights]; ring
    · simp only [tetraWeights]
      rw [max_eq_left (not_lt.mp h2), max_eq_right (not_lt.mp h1)]
    · simp only [tetraWeights]
      rw [min_eq_right (not_lt.mp h2), min_eq_left h3.le]
  · obtain ⟨h1, h2, h3⟩ := hn
    refine ⟨?_, ?_, ?_, ?_⟩
    · rw [if_neg h1, if_neg h2, if_neg h3]
      simp only [rv_comb, tetraCorners, tetraWeights]
    · simp only [wsum4, tetraWeights]; ring
    · simp only [tetraWeights]
      rw [max_eq_left (not_lt.mp h2), max_eq_right (not_lt.mp h1)]
    · simp only [tetraWeights]
      rw [min_eq_right (not_lt.mp h2), min_eq_right (not_lt.mp h3)]

/-- Witness for C1 at the concrete fractional triple `(1/2, 1/4, 1/8)`,
which selects branch 0 (`dr > dg > db`). -/
theorem tetrahedral_branches_witness :
    interp_tetrahedral ctx0 ⟨((0:ℕ) : ℚ) + 1/2, ((0:ℕ) : ℚ) + 1/4, ((0:ℕ) : ℚ) + 1/8⟩ =
      rv_comb (tetraWeights (1/2) (1/4) (1/8) 0)
        (tetraCorners ctx0 ((0:ℕ) : ℤ) ((0:ℕ) : ℤ) ((0:ℕ) : ℤ) 0) ∧
    wsum4 (tetraWeights (1/2) (1/4) (1/8) 0) = 1 ∧
    (tetraWeights (1/2) (1/4) (1/8) 0).1 = 1 - max (1/2) (max ((1:ℚ)/4) (1/8)) ∧
    (tetraWeights (1/2) (1/4) (1/8) 0).2.2.2 = min (1/2) (min ((1:ℚ)/4) (1/8)) :=
  (tetrahedral_branches ctx0 0 0 0 (1/2) (1/4) (1/8)
    (by norm_num) (by norm_num) (by norm_num) (by norm_num) (by norm_num) (by norm_num)).2
    0 ⟨by norm_num, by norm_num⟩

lemma truncQ_of_nonneg {x : ℚ} (h : 0 ≤ x) : truncQ x = ⌊x⌋ := if_pos h

/-- C3 counterexample: at the 8-bit maximal channel value 255 with grid size 2
the scaled coordinate is exactly `size-1 = 1`, so the floor index is `size-1`
(it exceeds `size-2 = 0`) and the `NEXT` access is at index `size = 2`, outside
`[0, size-1] = [0, 1]`. -/
theorem scaling_counterexample :
    PREV ((255 : ℚ) * ((1 / ((2 ^ 8 : ℚ) - 1)) * (((2:ℤ) : ℚ) - 1))) = 1 ∧
    ¬(PREV ((255 : ℚ) * ((1 / ((2 ^ 8 : ℚ) - 1)) * (((2:ℤ) : ℚ) - 1))) ≤ (2:ℤ) - 2) ∧
    NEXT ((255 : ℚ) * ((1 / ((2 ^ 8 : ℚ) - 1)) * (((2:ℤ) : ℚ) - 1))) = 2 ∧
    ¬(NEXT ((255 : ℚ) * ((1 / ((2 ^ 8 : ℚ) - 1)) * (((2:ℤ) : ℚ) - 1))) ≤ (2:ℤ) - 1) := by
  have hx : (255 : ℚ) * ((1 / ((2 ^ 8 : ℚ) - 1)) * (((2:ℤ) : ℚ) - 1)) = 1 := by norm_num
  refine ⟨?_, ?_, ?_, ?_⟩ <;> rw [hx] <;> simp [PREV, NEXT, truncQ]

/-- C3 (amended): the scaling maps the maximal channel value exactly to
`size-1`; for every smaller value the floor index is at most `size-2` and the
`PREV`/`NEXT` accesses stay within `[0, size-1]`; at the maximal value the
floor index is `size-1` and the `NEXT` access reaches index `size`; with
`lutsize = 1` all three interpolation entry points return the cell `(0,0,0)`. -/
theorem scaling_index_bounds (nbits : ℕ) (size : ℤ) (v : ℕ)
    (hn : 1 ≤ nbits) (hs2 : 2 ≤ size) (hv : (v : ℤ) ≤ 2 ^ nbits - 1) :
    (0 ≤ PREV ((v : ℚ) * ((1 / ((2 ^ nbits : ℚ) - 1)) * ((size : ℚ) - 1)))) ∧
    ((v : ℤ) < 2 ^ nbits - 1 →
      PREV ((v : ℚ) * ((1 / ((2 ^ nbits : ℚ) - 1)) * ((size : ℚ) - 1))) ≤ size - 2 ∧
      NEXT ((v : ℚ) * ((1 / ((2 ^ nbits : ℚ) - 1)) * ((size : ℚ) - 1))) ≤ size - 1) ∧
    ((v : ℤ) = 2 ^ nbits - 1 →
      (v : ℚ) * ((1 / ((2 ^ nbits : ℚ) - 1)) * ((size : ℚ) - 1)) = (size : ℚ) - 1 ∧
      PREV ((v : ℚ) * ((1 / ((2 ^ nbits : ℚ) - 1)) * ((size : ℚ) - 1))) = size - 1 ∧
      NEXT ((v : ℚ) * ((1 / ((2 ^ nbits : ℚ) - 1)) * ((size : ℚ) - 1))) = size) ∧
    (∀ lut3d : LUT3DContext, lut3d.lutsize = 1 →
      interp_func nbits interp_nearest lut3d v v v = lut3d.lut 0 0 0 ∧
      interp_func nbits interp_trilinear lut3d v v v = lut3d.lut 0 0 0 ∧
      interp_func nbits interp_tetrahedral lut3d v v v = lut3d.lut 0 0 0) := by
  have hM : (2 : ℚ) ≤ (2 ^ nbits : ℚ) := by
    calc (2 : ℚ) = 2 ^ 1 := by norm_num
    _ ≤ 2 ^ nbits := pow_le_pow_right₀ (by norm_num) hn
  have hM1 : (1 : ℚ) ≤ (2 ^ nbits : ℚ) - 1 := by linarith
  have hM0 : (0 : ℚ) < (2 ^ nbits : ℚ) - 1 := by linarith
  have hS1 : (1 : ℚ) ≤ (size : ℚ) - 1 := by
    have : (2 : ℚ) ≤ (size : ℚ) := by exact_mod_cast hs2
    linarith
  have hx0 : 0 ≤ (v : ℚ) * ((1 / ((2 ^ nbits : ℚ) - 1)) * ((size : ℚ) - 1)) := by
    apply mul_nonneg (by positivity)
    apply mul_nonneg (by positivity)
    linarith
  refine ⟨?_, ?_, ?_, ?_⟩
  · rw [PREV, truncQ_of_nonneg hx0]
    exact Int.floor_nonneg.mpr hx0
  · intro hlt
    have hvq : (v : ℚ) < (2 ^ nbits : ℚ) - 1 := by
      have := hlt
      push_cast at this ⊢
      exact_mod_cast this
    have hxlt : (v : ℚ) * ((1 / ((2 ^ nbits : ℚ) - 1)) * ((size : ℚ) - 1)) < (size : ℚ) - 1 := by
      have h1 : (v : ℚ) * ((1 / ((2 ^ nbits : ℚ) - 1)) * ((size : ℚ) - 1)) =
          ((v : ℚ) / ((2 ^ nbits : ℚ) - 1)) * ((size : ℚ) - 1) := by ring
      rw [h1]
      have h2 : (v : ℚ) / ((2 ^ nbits : ℚ) - 1) < 1 := (div_lt_one hM0).mpr hvq
      nlinarith
    have hfl : PREV ((v : ℚ) * ((1 / ((2 ^ nbits : ℚ) - 1)) * ((size : ℚ) - 1))) < size - 1 := by
      rw [PREV, truncQ_of_nonneg hx0]
      apply Int.floor_lt.mpr
      push_cast
      exact hxlt
    constructor
    · omega
    · rw [NEXT, truncQ_of_nonneg hx0]
      rw [PREV, truncQ_of_nonneg hx0] at hfl
      omega
  · intro heq
    have hvq : (v : ℚ) = (2 ^ nbits : ℚ) - 1 := by
      have := heq
      push_cast at this ⊢
      exact_mod_cast this
    have hxe : (v : ℚ) * ((1 / ((2 ^ nbits : ℚ) - 1)) * ((size : ℚ) - 1)) = (size : ℚ) - 1 := by
      rw [hvq]
      field_simp
    refine ⟨hxe, ?_, ?_⟩
    · rw [PREV, hxe]
      have : ((size : ℚ) - 1) = (((size - 1 : ℤ)) : ℚ) := by push_cast; ring
      rw [this, truncQ_intCast]
    · rw [NEXT, hxe]
      have : ((size : ℚ) - 1) = (((size - 1 : ℤ)) : ℚ) := by push_cast; ring
      rw [this, truncQ_intCast]
      omega
  · intro lut3d h1
    have hz : ((lut3d.lutsize : ℚ) - 1) = 0 := by rw [h1]; norm_num
    have hvz : ∀ interp : LUT3DContext → rgbvec → rgbvec,
        interp_func nbits interp lut3d v v v = interp lut3d ⟨0, 0, 0⟩ := by
      intro interp
      simp only [interp_func, hz, mul_zero, zero_mul]
    have hvert := interp_vertex lut3d 0 0 0
    simp only [Nat.cast_zero] at hvert
    exact ⟨(hvz interp_nearest).trans hvert.1, (hvz interp_trilinear).trans hvert.2.1,
      (hvz interp_tetrahedral).trans hvert.2.2⟩

/-- The size loop returns the first `s ≥ st` whose cube reaches `inv`. -/
lemma m3d_size_loop_spec (inv : ℤ) (st : ℕ) :
    st ≤ m3d_size_loop inv st ∧
    ¬((m3d_size_loop inv st : ℤ) * (m3d_size_loop inv st) * (m3d_size_loop inv st) < inv) ∧
    ∀ t : ℕ, st ≤ t → inv ≤ (t : ℤ) * t * t → m3d_size_loop inv st ≤ t := by
  by_cases h : (st : ℤ) * st * st < inv
  · rw [m3d_size_loop, if_pos h]
    obtain ⟨ih1, ih2, ih3⟩ := m3d_size_loop_spec inv (st + 1)
    refine ⟨by omega, ih2, ?_⟩
    intro t ht hcube
    refine ih3 t ?_ hcube
    rcases Nat.lt_or_ge st t with h2 | h2
    · omega
    · have het : t = st := by omega
      subst het
      linarith
  · rw [m3d_size_loop, if_neg h]
    exact ⟨le_refl st, h, fun t ht _ => ht⟩
termination_by inv.toNat + 1 - st
decreasing_by
  have hsz : (st : ℤ) < inv := by
    rcases Nat.eq_zero_or_pos st with h1 | h1
    · subst h1; simpa using h
    · have h2 : (1 : ℤ) ≤ (st : ℤ) := by exact_mod_cast h1
      nlinarith [h2]
  omega

/-- C8: for every declared `in` value `N ≥ 1`, the m3d axis size derived by
the loop `for (size = 1; size*size*size < in; size++)` is the smallest
integer `s ≥ 1` with `s^3 ≥ N`. -/
theorem m3d_size_smallest (inv : ℤ) (h1 : 1 ≤ inv) :
    1 ≤ m3d_size_loop inv 1 ∧
    inv ≤ (m3d_size_loop inv 1 : ℤ) * (m3d_size_loop inv 1) * (m3d_size_loop inv 1) ∧
    ∀ t : ℕ, 1 ≤ t → inv ≤ (t : ℤ) * t * t → m3d_size_loop inv 1 ≤ t := by
  obtain ⟨a, b, c⟩ := m3d_size_loop_spec inv 1
  exact ⟨a, not_lt.mp b, c⟩

/-- Witness for C8: `in 8` derives size 2, `in 9` derives size 3, and the
theorem instantiated at `N = 9` (with minimality applied at `t = 3`). -/
theorem m3d_size_smallest_witness :
    m3d_size_loop 8 1 = 2 ∧ m3d_size_loop 9 1 = 3 ∧
    (1 ≤ m3d_size_loop 9 1 ∧
     9 ≤ (m3d_size_loop 9 1 : ℤ) * (m3d_size_loop 9 1) * (m3d_size_loop 9 1) ∧
     m3d_size_loop 9 1 ≤ 3) := by
  refine ⟨?_, ?_, (m3d_size_smallest 9 (by decide)).1,
    (m3d_size_smallest 9 (by decide)).2.1,
    (m3d_size_smallest 9 (by decide)).2.2 3 (by decide) (by decide)⟩
  · rw [m3d_size_loop]
    norm_num
    rw [m3d_size_loop]
    norm_num
  · rw [m3d_size_loop]
    norm_num
    rw [m3d_size_loop]
    norm_num
    rw [m3d_size_loop]
    norm_num

/-- A line with the `values` prefix matches neither `in` nor `out`. -/
lemma pfx_values_not_in_out (l : Line) (h : pfx (strL "values") l = true) :
    pfx (strL "in") l = false ∧ pfx (strL "out") l = false := by
  match l with
  | [] => exact absurd h (by decide)
  | c :: rest =>
    have h1 : pfx (strL "values") (c :: rest) =
        (if ('v' : Char) = c then pfx (strL "alues") rest else false) := rfl
    rw [h1] at h
    by_cases hv : ('v' : Char) = c
    · subst hv
      constructor
      · rw [show pfx (strL "in") ('v' :: rest) =
            (if ('i' : Char) = 'v' then pfx (strL "n") rest else false) from rfl,
          if_neg (by decide)]
      · rw [show pfx (strL "out") ('v' :: rest) =
            (if ('o' : Char) = 'v' then pfx (strL "ut") rest else false) from rfl,
          if_neg (by decide)]
    · rw [if_neg hv] at h
      exact absurd h (by simp)

/-- If no line before the `values` line carries an `in`, `out` or `values`
prefix, the header scan ends at the `values` line with `in` and `out` still
at their `-1` sentinels. -/
lemma m3dScan_no_directives (pre : List Line) (vline : Line) (post : List Line)
    (m : ℕ × ℕ × ℕ)
    (hpre : ∀ l ∈ pre, pfx (strL "in") l = false ∧ pfx (strL "out") l = false ∧
      pfx (strL "values") l = false)
    (hv : pfx (strL "values") vline = true) :
    (m3dScan (pre ++ vline :: post) (-1) (-1) m).1 = -1 ∧
    (m3dScan (pre ++ vline :: post) (-1) (-1) m).2.1 = -1 := by
  induction pre with
  | nil =>
    obtain ⟨hin, hout⟩ := pfx_values_not_in_out vline hv
    simp only [List.nil_append, m3dScan, hin, hout, hv]
    simp
  | cons p pre ih =>
    obtain ⟨h1, h2, h3⟩ := hpre p (List.mem_cons_self p pre)
    simp only [List.cons_append, m3dScan, h1, h2, h3]
    simp only [Bool.false_eq_true, if_false]
    exact ih (fun l hl => hpre l (List.mem_cons_of_mem p hl))

/-- C10: the m3d header scan terminates at the first `values` line, so a file
whose `in` and `out` directives appear only after a `values` line fails with
the missing-directive error even though both directives are present. -/
theorem m3d_in_out_after_values (lut3d : LUT3DContext) (pre post : List Line) (vline : Line)
    (hpre : ∀ l ∈ pre, pfx (strL "in") l = false ∧ pfx (strL "out") l = false ∧
      pfx (strL "values") l = false)
    (hv : pfx (strL "values") vline = true) :
    parse_m3d lut3d (pre ++ vline :: post) = .error .invalidData := by
  have h := m3dScan_no_directives pre vline post (0, 1, 2) hpre hv
  simp only [parse_m3d]
  rw [if_pos (Or.inl h.1)]

/-- Witness for C10: `in 8` and `out 256` placed after the `values` line. -/
theorem m3d_in_out_after_values_witness :
    parse_m3d ctx0 ([] ++ strL "values rgb\n" :: [strL "in 8\n", strL "out 256\n"]) =
      .error .invalidData :=
  m3d_in_out_after_values ctx0 [] [strL "in 8\n", strL "out 256\n"] (strL "values rgb\n")
    (by simp) (by decide)

/-- Witness for C3's amended theorem at `nbits = 8`, `size = 2`, `v = 0`. -/
theorem scaling_index_bounds_witness :
    0 ≤ PREV (((0:ℕ) : ℚ) * ((1 / ((2 ^ 8 : ℚ) - 1)) * (((2:ℤ) : ℚ) - 1))) :=
  (scaling_index_bounds 8 2 0 (by decide) (by decide) (by decide)).1

/-! ### Premature end-of-stream behaviour -/

/-- Number of non-skippable lines left in the stream. -/
def countData (lines : List Line) : ℕ := (lines.filter (fun l => !skip_line l)).length

lemma nextDataLine_some (lines : List Line) (l : Line) (rest : List Line)
    (h : nextDataLine lines = some (l, rest)) :
    skip_line l = false ∧ countData lines = countData rest + 1 ∧
    ∀ x ∈ l :: rest, x ∈ lines := by
  induction lines with
  | nil => simp [nextDataLine] at h
  | cons p ls ih =>
    by_cases hs : skip_line p
    · rw [show nextDataLine (p :: ls) = nextDataLine ls from by simp [nextDataLine, hs]] at h
      obtain ⟨a, b, c⟩ := ih h
      refine ⟨a, ?_, ?_⟩
      · simpa [countData, List.filter_cons, hs] using b
      · exact fun x hx => List.mem_cons_of_mem p (c x hx)
    · rw [show nextDataLine (p :: ls) = some (p, ls) from by simp [nextDataLine, hs]] at h
      obtain ⟨rfl, rfl⟩ : p = l ∧ ls = rest := by
        simpa using h
      refine ⟨by simpa using hs, ?_, fun x hx => hx⟩
      simp [countData, List.filter_cons, hs]

lemma datGo_eof (cells : List (ℕ × ℕ × ℕ)) (lines : List Line) (g : Grid)
    (h : countData lines < cells.length) :
    datGo cells lines g = .error .unexpectedEOF := by
  induction cells generalizing lines g with
  | nil => simp at h
  | cons c cs ih =>
    rcases hnd : nextDataLine lines with _ | ⟨l, rest⟩
    · simp [datGo, hnd]
    · obtain ⟨_, hcount, _⟩ := nextDataLine_some lines l rest hnd
      simp only [datGo, hnd]
      apply ih
      simp only [List.length_cons] at h
      omega

lemma tdlGo_eof (cells : List (ℕ × ℕ × ℕ)) (lines : List Line) (g : Grid)
    (hwf : ∀ l ∈ lines, skip_line l = false → (scand3 l).1 = 3)
    (h : countData lines < cells.length) :
    tdlGo cells lines g = .error .unexpectedEOF := by
  induction cells generalizing lines g with
  | nil => simp at h
  | cons c cs ih =>
    rcases hnd : nextDataLine lines with _ | ⟨l, rest⟩
    · simp [tdlGo, hnd]
    · obtain ⟨hskip, hcount, hmem⟩ := nextDataLine_some lines l rest hnd
      have h3 : (scand3 l).1 = 3 := hwf l (hmem l (List.mem_cons_self l rest)) hskip
      have hok : ∃ g2, tdlCell g c l = .ok g2 := by simp [tdlCell, h3]
      obtain ⟨g2, hg2⟩ := hok
      simp only [tdlGo, hnd, hg2]
      apply ih
      · exact fun x hx hsx => hwf x (hmem x (List.mem_cons_of_mem l hx)) hsx
      · simp only [List.length_cons] at h
        omega

lemma m3dGo_eof (m : ℕ × ℕ × ℕ) (scale : ℚ) (cells : List (ℕ × ℕ × ℕ))
    (lines : List Line) (g : Grid)
    (hwf : ∀ l ∈ lines, (scanf3 l).1 = 3)
    (h : lines.length < cells.length) :
    m3dGo m scale cells lines g = .error .unexpectedEOF := by
  induction cells generalizing lines g with
  | nil => simp at h
  | cons c cs ih =>
    rcases lines with _ | ⟨l, rest⟩
    · simp [m3dGo]
    · have h3 : (scanf3 l).1 = 3 := hwf l (List.mem_cons_self l rest)
      have hok : ∃ g2, m3dCell m scale g c l = .ok g2 := by simp [m3dCell, h3]
      obtain ⟨g2, hg2⟩ := hok
      simp only [m3dGo, hg2]
      apply ih
      · exact fun x hx => hwf x (List.mem_cons_of_mem l hx)
      · simp only [List.length_cons] at h
        omega

lemma cubeGo_eof (cells : List (ℕ × ℕ × ℕ)) (lines : List Line)
    (mn mx : ℚ × ℚ × ℚ) (g : Grid)
    (hwf : ∀ l ∈ lines, skip_line l = false ∧ pfx (strL "DOMAIN_") l = false ∧
      (scanf3 l).1 = 3)
    (h : lines.length < cells.length) :
    cubeGo cells lines mn mx g = .error .unexpectedEOF := by
  induction cells generalizing lines mn mx g with
  | nil => simp at h
  | cons c cs ih =>
    rcases lines with _ | ⟨l, rest⟩
    · simp [cubeGo, cubeReadCell]
    · obtain ⟨hs, hD, h3⟩ := hwf l (List.mem_cons_self l rest)
      have hrc : cubeReadCell (l :: rest) mn mx = .ok (l, rest, mn, mx) := by
        simp [cubeReadCell, hD, hs]
      simp only [cubeGo, hrc, h3]
      simp only [ne_eq, not_true_eq_false, if_false, reduceIte]
      apply ih
      · exact fun x hx => hwf x (List.mem_cons_of_mem l hx)
      · simp only [List.length_cons] at h
        omega

lemma length_flatten_const {α : Type} (n m : ℕ) (f : ℕ → List α)
    (hf : ∀ k, (f k).length = m) :
    (((List.range n).map f).flatten).length = n * m := by
  induction n with
  | zero => simp
  | succ n ih =>
    rw [List.range_succ]
    simp only [List.map_append, List.map_cons, List.map_nil, List.flatten_append,
      List.flatten_cons, List.flatten_nil, List.length_append, List.append_nil, ih, hf]
    ring

lemma cellList_length (n : ℕ) : (cellList n).length = n * n * n := by
  unfold cellList
  rw [length_flatten_const n (n * n)]
  · ring
  · intro k
    rw [length_flatten_const n n]
    intro j
    simp

/-- C6: each fill loop reports the `NEXT_LINE` unexpected-EOF error when the
stream runs out while grid cells remain; in particular a `.3dl` stream whose
data lines (all well-formed) number fewer than `17*17*17` fails this way. -/
theorem eof_mid_grid :
    (∀ (cells : List (ℕ × ℕ × ℕ)) (lines : List Line) (g : Grid),
        countData lines < cells.length → datGo cells lines g = .error .unexpectedEOF) ∧
    (∀ (hdr : Line) (rest : List Line) (lut3d : LUT3DContext),
        (∀ l ∈ rest, skip_line l = false → (scand3 l).1 = 3) →
        countData rest < 17 * 17 * 17 →
        parse_3dl lut3d (hdr :: rest) = .error .unexpectedEOF) ∧
    (∀ (m : ℕ × ℕ × ℕ) (scale : ℚ) (cells : List (ℕ × ℕ × ℕ)) (lines : List Line) (g : Grid),
        (∀ l ∈ lines, (scanf3 l).1 = 3) → lines.length < cells.length →
        m3dGo m scale cells lines g = .error .unexpectedEOF) ∧
    (∀ (cells : List (ℕ × ℕ × ℕ)) (lines : List Line) (mn mx : ℚ × ℚ × ℚ) (g : Grid),
        (∀ l ∈ lines, skip_line l = false ∧ pfx (strL "DOMAIN_") l = false ∧
          (scanf3 l).1 = 3) →
        lines.length < cells.length →
        cubeGo cells lines mn mx g = .error .unexpectedEOF) := by
  refine ⟨datGo_eof, ?_, m3dGo_eof, cubeGo_eof⟩
  intro hdr rest lut3d hwf hcount
  have hlen : countData rest < (cellList 17).length := by
    rw [cellList_length]
    exact hcount
  have h := tdlGo_eof (cellList 17) rest { lut3d with lutsize := 17 }.lut hwf hlen
  simp only [parse_3dl, h]

/-- Witness for C6: a `.3dl` stream holding only the discarded header line. -/
theorem eof_mid_grid_witness :
    parse_3dl ctx0 [strL "3DMESH\n"] = .error .unexpectedEOF :=
  eof_mid_grid.2.1 (strL "3DMESH\n") [] ctx0 (by simp) (by decide)

/-! ### Malformed-input handling -/

/-- Whether loading succeeded. -/
def isOkE {α : Type} (r : Except LutError α) : Bool :=
  match r with
  | .ok _ => true
  | .error _ => false

/-- C4 counterexample: an m3d file whose `values` directive uses the characters
`x y z` (none of `r`, `g`, `b`) loads successfully: the loader never fails. -/
theorem invalid_values_char_accepted :
    isOkE (parse_m3d ctx0
      [strL "in 1\n", strL "out 2\n", strL "values x y z\n", strL "0 0 0\n"]) = true := by
  have hscan : m3dScan [strL "in 1\n", strL "out 2\n", strL "values x y z\n", strL "0 0 0\n"]
      (-1) (-1) (0, 1, 2) = (1, 2, (0, 1, 2), [strL "0 0 0\n"]) := by decide
  have hsize : m3d_size_loop 1 1 = 1 := by
    rw [m3d_size_loop]
    norm_num
  simp only [parse_m3d, hscan, hsize]
  decide

/-- C4 (amended): the cube, 3dl and m3d parsers fail with the invalid-data
error on a malformed data triple, and m3d fails when `in`/`out` are missing;
but the dat parser accepts any data line (its `sscanf` result is unchecked,
it can only fail with the EOF error), and an m3d `values` permutation
character outside `r`/`g`/`b` is silently ignored, leaving that mapping entry
unchanged. -/
theorem malformed_handling :
    (∀ (cells : List (ℕ × ℕ × ℕ)) (lines : List Line) (mn mx : ℚ × ℚ × ℚ) (g : Grid)
        (l : Line) (rest : List Line) (mn2 mx2 : ℚ × ℚ × ℚ),
        cells ≠ [] → cubeReadCell lines mn mx = .ok (l, rest, mn2, mx2) →
        (scanf3 l).1 ≠ 3 → cubeGo cells lines mn mx g = .error .invalidData) ∧
    (∀ (cells : List (ℕ × ℕ × ℕ)) (lines : List Line) (g : Grid) (l : Line) (rest : List Line),
        cells ≠ [] → nextDataLine lines = some (l, rest) →
        (scand3 l).1 ≠ 3 → tdlGo cells lines g = .error .invalidData) ∧
    (∀ (m : ℕ × ℕ × ℕ) (scale : ℚ) (cells : List (ℕ × ℕ × ℕ)) (l : Line) (ls : List Line)
        (g : Grid), cells ≠ [] → (scanf3 l).1 ≠ 3 →
        m3dGo m scale cells (l :: ls) g = .error .invalidData) ∧
    (∀ (lut3d : LUT3DContext) (lines : List Line),
        (m3dScan lines (-1) (-1) (0, 1, 2)).1 = -1 ∨
          (m3dScan lines (-1) (-1) (0, 1, 2)).2.1 = -1 →
        parse_m3d lut3d lines = .error .invalidData) ∧
    (∀ (cells : List (ℕ × ℕ × ℕ)) (lines : List Line) (g : Grid),
        (∃ g2, datGo cells lines g = .ok g2) ∨ datGo cells lines g = .error .unexpectedEOF) ∧
    (∀ (id : ℕ) (st : (ℕ × ℕ × ℕ) × List Char) (c : Char),
        (st.2.dropWhile (fun ch => av_isspace ch)).head? = some c →
        c ≠ 'r' → c ≠ 'g' → c ≠ 'b' → (setColor id st).1 = st.1) := by
  refine ⟨?_, ?_, ?_, ?_, ?_, ?_⟩
  · intro cells lines mn mx g l rest mn2 mx2 hne hrc h3
    rcases cells with _ | ⟨c, cs⟩
    · exact absurd rfl hne
    · simp only [cubeGo, hrc]
      rw [if_pos h3]
  · intro cells lines g l rest hne hnd h3
    rcases cells with _ | ⟨c, cs⟩
    · exact absurd rfl hne
    · simp only [tdlGo, hnd, tdlCell]
      rw [if_pos h3]
  · intro m scale cells l ls g hne h3
    rcases cells with _ | ⟨c, cs⟩
    · exact absurd rfl hne
    · simp only [m3dGo, m3dCell]
      rw [if_pos h3]
  · intro lut3d lines h
    simp only [parse_m3d]
    rw [if_pos h]
  · intro cells lines g
    induction cells generalizing lines g with
    | nil => exact Or.inl ⟨g, rfl⟩
    | cons c cs ih =>
      rcases hnd : nextDataLine lines with _ | ⟨l, rest⟩
      · right
        simp [datGo, hnd]
      · simp only [datGo, hnd]
        exact ih rest (datCell g c l)
  · intro id st c hc h1 h2 h3
    simp only [setColor]
    rw [hc]
    split
    · rename_i heq
      rw [Option.some.injEq] at heq
      exact absurd heq h1
    · rename_i heq
      rw [Option.some.injEq] at heq
      exact absurd heq h2
    · rename_i heq
      rw [Option.some.injEq] at heq
      exact absurd heq h3
    · rfl

/-- Witness for C4's amended theorem: one m3d cell with the malformed data
line `x` fails with the invalid-data error. -/
theorem malformed_handling_witness :
    m3dGo (0, 1, 2) 1 [(0, 0, 0)] [strL "x\n"] ctx0.lut = .error .invalidData :=
  malformed_handling.2.2.1 (0, 1, 2) 1 [(0, 0, 0)] (strL "x\n") [] ctx0.lut
    (by decide) (by decide)

/-! ### The pixel mapper -/

/-- C9: every written R, G, B channel lies in `[0, 2^nbits - 1]` (all three
produced by the same truncating conversion and clip), and on a 4-component
format the output alpha equals the input alpha, both in place and into a
fresh buffer. -/
theorem filter_pixel_range_alpha (nbits : ℕ) (interp : LUT3DContext → rgbvec → rgbvec)
    (lut3d : LUT3DContext) (rr gg bb aa step : ℕ) (direct : Bool)
    (src : ℕ → ℕ) (fresh : ℕ → ℤ)
    (hrg : rr ≠ gg) (hrb : rr ≠ bb) (hgb : gg ≠ bb)
    (har : aa ≠ rr) (hag : aa ≠ gg) (hab : aa ≠ bb) :
    (0 ≤ filter_pixel nbits interp lut3d rr gg bb aa step direct src fresh rr ∧
      filter_pixel nbits interp lut3d rr gg bb aa step direct src fresh rr ≤ 2 ^ nbits - 1) ∧
    (0 ≤ filter_pixel nbits interp lut3d rr gg bb aa step direct src fresh gg ∧
      filter_pixel nbits interp lut3d rr gg bb aa step direct src fresh gg ≤ 2 ^ nbits - 1) ∧
    (0 ≤ filter_pixel nbits interp lut3d rr gg bb aa step direct src fresh bb ∧
      filter_pixel nbits interp lut3d rr gg bb aa step direct src fresh bb ≤ 2 ^ nbits - 1) ∧
    (step = 4 →
      filter_pixel nbits interp lut3d rr gg bb aa step direct src fresh aa = (src aa : ℤ)) := by
  have hclip : ∀ a : ℤ, 0 ≤ av_clip_uintN nbits a ∧ av_clip_uintN nbits a ≤ 2 ^ nbits - 1 := by
    intro a
    have h1 : (0 : ℤ) < 2 ^ nbits := pow_pos (by norm_num) nbits
    unfold av_clip_uintN
    exact ⟨le_max_left 0 _, max_le (by linarith) (min_le_left _ _)⟩
  refine ⟨?_, ?_, ?_, ?_⟩
  · simp only [filter_pixel]
    split
    · rw [Function.update_noteq (Ne.symm har), Function.update_noteq hrb,
        Function.update_noteq hrg, Function.update_same]
      exact hclip _
    · rw [Function.update_noteq hrb, Function.update_noteq hrg, Function.update_same]
      exact hclip _
  · simp only [filter_pixel]
    split
    · rw [Function.update_noteq (Ne.symm hag), Function.update_noteq hgb,
        Function.update_same]
      exact hclip _
    · rw [Function.update_noteq hgb, Function.update_same]
      exact hclip _
  · simp only [filter_pixel]
    split
    · rw [Function.update_noteq (Ne.symm hab), Function.update_same]
      exact hclip _
    · rw [Function.update_same]
      exact hclip _
  · intro hstep
    simp only [filter_pixel]
    cases hdir : direct with
    | false =>
      rw [if_pos ⟨rfl, hstep⟩, Function.update_same]
    | true =>
      rw [if_neg (by simp)]
      rw [Function.update_noteq hab, Function.update_noteq hag, Function.update_noteq har]
      simp

/-- Witness for C9: 8-bit pixel at offsets `0,1,2,3`, 4-component, not in
place. -/
theorem filter_pixel_range_alpha_witness :
    (0 ≤ filter_pixel 8 interp_nearest ctx0 0 1 2 3 4 false (fun _ => 5) (fun _ => 7) 0 ∧
      filter_pixel 8 interp_nearest ctx0 0 1 2 3 4 false (fun _ => 5) (fun _ => 7) 0 ≤ 2 ^ 8 - 1) ∧
    (0 ≤ filter_pixel 8 interp_nearest ctx0 0 1 2 3 4 false (fun _ => 5) (fun _ => 7) 1 ∧
      filter_pixel 8 interp_nearest ctx0 0 1 2 3 4 false (fun _ => 5) (fun _ => 7) 1 ≤ 2 ^ 8 - 1) ∧
    (0 ≤ filter_pixel 8 interp_nearest ctx0 0 1 2 3 4 false (fun _ => 5) (fun _ => 7) 2 ∧
      filter_pixel 8 interp_nearest ctx0 0 1 2 3 4 false (fun _ => 5) (fun _ => 7) 2 ≤ 2 ^ 8 - 1) ∧
    filter_pixel 8 interp_nearest ctx0 0 1 2 3 4 false (fun _ => 5) (fun _ => 7) 3 =
      ((5 : ℕ) : ℤ) := by
  have h := filter_pixel_range_alpha 8 interp_nearest ctx0 0 1 2 3 4 false
    (fun _ => 5) (fun _ => 7)
    (by decide) (by decide) (by decide) (by decide) (by decide) (by decide)
  exact ⟨h.1, h.2.1, h.2.2.1, h.2.2.2 rfl⟩

/-! ### Size-invariant violations -/

lemma m3dScan_step_in (l : Line) (ls : List Line) (inv outv : ℤ) (m : ℕ × ℕ × ℕ)
    (h : pfx (strL "in") l = true) :
    m3dScan (l :: ls) inv outv m = m3dScan ls (strtol (l.drop 2)) outv m := by
  simp only [m3dScan, h, if_true]

lemma m3dScan_step_out (l : Line) (ls : List Line) (inv outv : ℤ) (m : ℕ × ℕ × ℕ)
    (h1 : pfx (strL "in") l = false) (h2 : pfx (strL "out") l = true) :
    m3dScan (l :: ls) inv outv m = m3dScan ls inv (strtol (l.drop 3)) m := by
  simp only [m3dScan, h1, h2, if_true, Bool.false_eq_true, if_false]

lemma m3dScan_step_values (l : Line) (ls : List Line) (inv outv : ℤ) (m : ℕ × ℕ × ℕ)
    (h1 : pfx (strL "in") l = false) (h2 : pfx (strL "out") l = false)
    (h3 : pfx (strL "values") l = true) :
    m3dScan (l :: ls) inv outv m =
      (inv, outv, (setColor 2 (setColor 1 (setColor 0 (m, l.drop 6)))).1, ls) := by
  simp only [m3dScan, h1, h2, h3, if_true, Bool.false_eq_true, if_false]

/-- Enough well-formed data lines make the m3d fill loop succeed. -/
lemma m3dGo_ok (m : ℕ × ℕ × ℕ) (scale : ℚ) (cells : List (ℕ × ℕ × ℕ))
    (lines : List Line) (g : Grid)
    (hwf : ∀ l ∈ lines, (scanf3 l).1 = 3) (hlen : cells.length ≤ lines.length) :
    ∃ g2, m3dGo m scale cells lines g = .ok g2 := by
  induction cells generalizing lines g with
  | nil => exact ⟨g, rfl⟩
  | cons c cs ih =>
    rcases lines with _ | ⟨l, rest⟩
    · simp at hlen
    · have h3 : (scanf3 l).1 = 3 := hwf l (List.mem_cons_self l rest)
      have hok : ∃ g2, m3dCell m scale g c l = .ok g2 := by simp [m3dCell, h3]
      obtain ⟨g2, hg2⟩ := hok
      simp only [m3dGo, hg2]
      refine ih rest g2 (fun x hx => hwf x (List.mem_cons_of_mem l hx)) ?_
      simp only [List.length_cons] at hlen
      omega

/-- Successful run of `parse_m3d`, stated over variables. -/
lemma parse_m3d_eval (lut3d : LUT3DContext) (lines rest : List Line) (inv outv : ℤ)
    (m : ℕ × ℕ × ℕ) (g2 : Grid)
    (hscan : m3dScan lines (-1) (-1) (0, 1, 2) = (inv, outv, m, rest))
    (hin : ¬(inv = -1 ∨ outv = -1))
    (hfill : m3dGo m (1 / ((outv : ℚ) - 1)) (cellList (m3d_size_loop inv 1)) rest
      lut3d.lut = .ok g2) :
    parse_m3d lut3d lines = .ok { lut := g2, lutsize := ((m3d_size_loop inv 1 : ℕ) : ℤ) } := by
  simp only [parse_m3d, hscan]
  rw [if_neg hin]
  rw [hfill]

/-- C5 (bug demonstration): a `.cube` declaring `LUT_3D_SIZE 40` is rejected
with the "Too large" error and a load leaving the grid empty is rejected,
but `init` accepts a `.cube` declaring `LUT_3D_SIZE -5` (final size `-5`),
and an `.m3d` declaring `in 46657` derives size 37 and loads successfully,
so a successful initialization does not guarantee a size in `[1, 36]`. -/
theorem size_invariant_violated :
    init (some (strL "f.cube", [strL "LUT_3D_SIZE 40\n"])) = .error .tooLarge ∧
    init (some (strL "f.cube", [strL "# no size line\n"])) = .error .emptyLut ∧
    (init (some (strL "f.cube", [strL "LUT_3D_SIZE -5\n"])) =
        .ok { lut := ctx0.lut, lutsize := -5 } ∧
      ¬(1 ≤ (-5 : ℤ) ∧ (-5 : ℤ) ≤ 36)) ∧
    (∃ lut3d2,
      parse_m3d ctx0 (strL "in 46657\n" :: strL "out 2\n" :: strL "values rgb\n" ::
        List.replicate 50653 (strL "0 0 0\n")) = .ok lut3d2 ∧
      lut3d2.lutsize = ((37 : ℕ) : ℤ) ∧ ¬(lut3d2.lutsize ≤ 36)) := by
  refine ⟨rfl, rfl, ⟨rfl, by decide⟩, ?_⟩
  have e1 := m3dScan_step_in (strL "in 46657\n")
    (strL "out 2\n" :: strL "values rgb\n" :: List.replicate 50653 (strL "0 0 0\n"))
    (-1) (-1) (0, 1, 2) (by decide)
  rw [show strtol ((strL "in 46657\n").drop 2) = 46657 from by decide] at e1
  have e2 := m3dScan_step_out (strL "out 2\n")
    (strL "values rgb\n" :: List.replicate 50653 (strL "0 0 0\n"))
    46657 (-1) (0, 1, 2) (by decide) (by decide)
  rw [show strtol ((strL "out 2\n").drop 3) = 2 from by decide] at e2
  have e3 := m3dScan_step_values (strL "values rgb\n")
    (List.replicate 50653 (strL "0 0 0\n")) 46657 2 (0, 1, 2)
    (by decide) (by decide) (by decide)
  rw [show (setColor 2 (setColor 1 (setColor 0 ((0, 1, 2), (strL "values rgb\n").drop 6)))).1
      = (0, 1, 2) from by decide] at e3
  have hscan := (e1.trans e2).trans e3
  have h37 : m3d_size_loop 46657 1 = 37 := by
    obtain ⟨ha, hb, hc⟩ := m3d_size_loop_spec 46657 1
    have hle : m3d_size_loop 46657 1 ≤ 37 := hc 37 (by omega) (by norm_num)
    have hge : 37 ≤ m3d_size_loop 46657 1 := by
      by_contra hlt
      push_neg at hlt
      have h36 : (m3d_size_loop 46657 1 : ℤ) ≤ 36 := by exact_mod_cast Nat.lt_succ_iff.mp hlt
      have h0 : (0 : ℤ) ≤ (m3d_size_loop 46657 1 : ℤ) := Int.ofNat_nonneg _
      have hcube : (m3d_size_loop 46657 1 : ℤ) * (m3d_size_loop 46657 1) *
          (m3d_size_loop 46657 1) ≤ 36 * 36 * 36 := by nlinarith
      omega
    omega
  obtain ⟨g2, hg2⟩ := m3dGo_ok (0, 1, 2) (1 / (((2 : ℤ) : ℚ) - 1)) (cellList 37)
    (List.replicate 50653 (strL "0 0 0\n")) ctx0.lut
    (fun l hl => by rw [List.eq_of_mem_replicate hl]; decide)
    (by rw [cellList_length, List.length_replicate])
  have hg2b : m3dGo (0, 1, 2) (1 / (((2 : ℤ) : ℚ) - 1)) (cellList (m3d_size_loop 46657 1))
      (List.replicate 50653 (strL "0 0 0\n")) ctx0.lut = .ok g2 := by
    rw [h37]
    exact hg2
  have hres := parse_m3d_eval ctx0
    (strL "in 46657\n" :: strL "out 2\n" :: strL "values rgb\n" ::
      List.replicate 50653 (strL "0 0 0\n"))
    (List.replicate 50653 (strL "0 0 0\n")) 46657 2 (0, 1, 2) g2 hscan (by decide) hg2b
  rw [h37] at hres
  exact ⟨{ lut := g2, lutsize := ((37 : ℕ) : ℤ) }, hres, rfl,
    by show ¬(((37 : ℕ) : ℤ) ≤ 36); decide⟩

end VfLut3D
